import Mathlib

/-!
Shallow embedding of the plwordnet-rs library (`src/model.rs`, `src/parser.rs`,
`src/logic.rs`) in Lean 4, together with theorems checking the repository's
specification against it.

Modelling conventions:
* Rust `HashMap<usize, T>` becomes an association list `List (Nat × T)` with
  `insertEntry` (replace-on-collision, as `HashMap::insert`), `lookupEntry`
  (`HashMap::get`) and `modifyEntry` (`Entry::and_modify`).
* Rust panics (`unwrap` on `None`/`Err`, `unreachable!`) become the error
  component of `Except Panic _`.  A `Panic` value models a process abort; it is
  NOT a `Result::Err` returned to the caller (`from_file` only returns `Err`
  for file-open failures, which are below the event level modelled here).
* The XML tokenizer (quick_xml) is external to the repository; the parser is
  modelled directly on the event stream it produces: a `List Event` of
  start / self-closing ("empty") / text / end events.  Attribute values and
  text content arrive already UTF-8 decoded and unescaped.
* Machine integers: `usize` is `Nat` with an explicit `< 2^64` bound at the
  parse boundary, `i32` is `Int` with explicit `i32` range checks there.
-/

namespace WN

/-- Equality of `Except` values is decidable when both components are. -/
instance {ε α : Type} [DecidableEq ε] [DecidableEq α] : DecidableEq (Except ε α) := fun x y =>
  match x, y with
  | .ok a, .ok b => decidable_of_iff (a = b) (by simp)
  | .error e, .error f => decidable_of_iff (e = f) (by simp)
  | .ok _, .error _ => .isFalse (by simp)
  | .error _, .ok _ => .isFalse (by simp)

/-! ### Association-list model of `HashMap<usize, T>` -/

/-- `HashMap::get`: first entry with the given key. -/
def lookupEntry {α : Type} : List (Nat × α) → Nat → Option α
  | [], _ => none
  | (k, v) :: rest, i => if k = i then some v else lookupEntry rest i

/-- `HashMap::insert`: replace the entry with the given key, or add one. -/
def insertEntry {α : Type} : List (Nat × α) → Nat → α → List (Nat × α)
  | [], k, v => [(k, v)]
  | (k', v') :: rest, k, v =>
      if k' = k then (k, v) :: rest else (k', v') :: insertEntry rest k v

/-- `HashMap::entry(k).and_modify(f)`: update the entry with key `k` in place,
no effect when `k` is absent. -/
def modifyEntry {α : Type} : List (Nat × α) → Nat → (α → α) → List (Nat × α)
  | [], _, _ => []
  | (k', v') :: rest, k, f =>
      if k' = k then (k', f v') :: rest else (k', v') :: modifyEntry rest k f

/-- Keys of the map are pairwise distinct (a `HashMap` invariant). -/
def nodupKeys {α : Type} (m : List (Nat × α)) : Prop :=
  (m.map Prod.fst).Nodup

/-- Every key equals the designated id field of the value stored under it. -/
def keysMatch {α : Type} (m : List (Nat × α)) (getId : α → Nat) : Prop :=
  ∀ p ∈ m, getId p.2 = p.1

/-! ### Data model (`src/model.rs`) -/

/-- `Language` from `model.rs` (`PL` Polish, `EN` English). -/
inductive Language where
  | PL
  | EN
deriving DecidableEq, Repr

/-- `LexicalUnit` from `model.rs`.  `tagcount`/`variant` are Rust `i32`,
modelled as `Int` (range-checked when parsed). -/
structure LexicalUnit where
  id : Nat
  name : String
  pos : String
  tagcount : Int
  domain : String
  desc : String
  workstate : String
  source : String
  variant : Int
  language : String
deriving DecidableEq, Repr

/-- `Synset` from `model.rs`; `lexical_units` is the ordered member id list. -/
structure Synset where
  id : Nat
  workstate : String
  split : Int
  owner : String
  definition : String
  desc : String
  abstract_ : Bool
  lexical_units : List Nat
deriving DecidableEq, Repr

/-- `RelationTypeTest` from `model.rs`. -/
structure RelationTypeTest where
  text : String
  pos : String
deriving DecidableEq, Repr

/-- `RelationType` from `model.rs`. -/
structure RelationType where
  id : Nat
  type_ : String
  reverse : Nat
  name : String
  description : String
  posstr : String
  display : String
  shortcut : String
  autoreverse : Bool
  pwn : String
  tests : List RelationTypeTest
deriving DecidableEq, Repr

/-- `LexicalRelation` from `model.rs`. -/
structure LexicalRelation where
  parent : Nat
  child : Nat
  relation : Nat
  valid : Bool
  owner : String
deriving DecidableEq, Repr

/-- `SynsetRelation` from `model.rs`. -/
structure SynsetRelation where
  parent : Nat
  child : Nat
  relation : Nat
  valid : Bool
  owner : String
deriving DecidableEq, Repr

/-- `PlWordNet` from `model.rs` (spelled `PlWordnet` in the `parser.rs`
snapshot; both snapshots declare the same fields). -/
structure PlWordNet where
  owner : String
  date : String
  version : String
  lexical_units : List (Nat × LexicalUnit)
  synsets : List (Nat × Synset)
  relation_types : List (Nat × RelationType)
  lexical_relations : List LexicalRelation
  synset_relations : List SynsetRelation
deriving DecidableEq, Repr

/-! ### Panics and attribute casts (`src/parser.rs`) -/

/-- Kind component of Rust's `ParseIntError`, the only data its panic message
reports (it carries neither the raw text nor the attribute or tag name). -/
inductive IntErrKind where
  | emptyStr
  | invalidDigit
  | posOverflow
  | negOverflow
deriving DecidableEq, Repr

/-- An aborting panic in `parser.rs` / `model.rs`:
`unwrapNone` = `Option::unwrap` on `None`, `unwrapErr k` = `Result::unwrap` on
`Err(ParseIntError{kind: k})`, `unreachableCode` = `unreachable!()`. -/
inductive Panic where
  | unwrapNone
  | unwrapErr (kind : IntErrKind)
  | unreachableCode
deriving DecidableEq, Repr

/-- Accumulating digit loop of Rust's `from_str_radix` (radix 10). -/
def digitsVal (acc : Nat) : List Char → Option Nat
  | [] => some acc
  | c :: cs =>
      if c.isDigit then digitsVal (acc * 10 + (c.toNat - 48)) cs else none

/-- `str::parse::<uN>` without the width check: a nonempty all-digit string.
(Rust also accepts one leading `+`, which never occurs in the corpus.) -/
def strToNat (s : String) : Option Nat :=
  match s.data with
  | [] => none
  | cs => digitsVal 0 cs

/-- `str::parse::<iN>` without the width check: optional sign, then digits. -/
def strToInt (s : String) : Option Int :=
  match s.data with
  | '-' :: cs =>
      match digitsVal 0 cs with
      | some n => if cs = [] then none else some (-(n : Int))
      | none => none
  | '+' :: cs =>
      match digitsVal 0 cs with
      | some n => if cs = [] then none else some (n : Int)
      | none => none
  | [] => none
  | cs => (digitsVal 0 cs).map (fun n => (n : Int))

/-- `str::ends_with`. -/
def strEndsWith (s suffix : String) : Bool :=
  suffix.data.isSuffixOf s.data

/-- ASCII whitespace (the corpus contains no Unicode whitespace, so this
matches Rust's `char::is_whitespace` on all inputs that occur). -/
def isWs (c : Char) : Bool :=
  c = ' ' || c = '\t' || c = '\n' || c = '\r'

/-- `str::trim`. -/
def strTrim (s : String) : String :=
  ⟨((s.data.dropWhile isWs).reverse.dropWhile isWs).reverse⟩

/-- `cast_string`: attribute values are already UTF-8 decoded in the model. -/
def cast_string (s : String) : String := s

/-- `cast_usize`: `str::parse::<usize>().unwrap()` (usize = u64 here). -/
def cast_usize (s : String) : Except Panic Nat :=
  match strToNat s with
  | some n =>
      if n < 18446744073709551616 then .ok n
      else .error (.unwrapErr .posOverflow)
  | none =>
      .error (.unwrapErr (if s = "" then .emptyStr else .invalidDigit))

/-- `cast_i32`: `str::parse::<i32>().unwrap()`. -/
def cast_i32 (s : String) : Except Panic Int :=
  match strToInt s with
  | some v =>
      if -2147483648 ≤ v ∧ v ≤ 2147483647 then .ok v
      else .error (.unwrapErr (if v < 0 then .negOverflow else .posOverflow))
  | none =>
      .error (.unwrapErr (if s = "" then .emptyStr else .invalidDigit))

/-- `cast_bool`: `text == "true"`; never fails. -/
def cast_bool (s : String) : Bool := s = "true"

/-! ### Attribute binding (the `gen_parser!` macro of `parser.rs`)

Attribute lists are modelled as ordered key/value pairs.  The macro's loop
sets each field from every matching attribute in document order, so on
duplicate-free attribute lists (quick_xml rejects duplicates upstream) the
last occurrence wins; `getAttr` reproduces that.  Each bound field is cast
when present and defaulted when absent (`unwrap_or(Default::default())`).
The macro casts in attribute document order while the model casts per field
in declaration order; both abort on the first failing cast. -/

/-- Final value of one attribute key after the binder's loop over `attrs`. -/
def getAttr (attrs : List (String × String)) (key : String) : Option String :=
  attrs.foldl (fun acc kv => if kv.1 = key then some kv.2 else acc) none

/-- Bind a text field: absent attribute defaults to `""`. -/
def bindStr (attrs : List (String × String)) (key : String) : String :=
  match getAttr attrs key with
  | none => ""
  | some v => cast_string v

/-- Bind a `usize` field: absent attribute defaults to `0`. -/
def bindNat (attrs : List (String × String)) (key : String) : Except Panic Nat :=
  match getAttr attrs key with
  | none => .ok 0
  | some v => cast_usize v

/-- Bind an `i32` field: absent attribute defaults to `0`. -/
def bindInt (attrs : List (String × String)) (key : String) : Except Panic Int :=
  match getAttr attrs key with
  | none => .ok 0
  | some v => cast_i32 v

/-- Bind a `bool` field: absent attribute defaults to `false`. -/
def bindBool (attrs : List (String × String)) (key : String) : Bool :=
  match getAttr attrs key with
  | none => false
  | some v => cast_bool v

/-- `parse_array_list`: root metadata, all collections empty. -/
def parse_array_list (attrs : List (String × String)) : PlWordNet :=
  { owner := bindStr attrs "owner"
    date := bindStr attrs "date"
    version := bindStr attrs "version"
    lexical_units := []
    synsets := []
    relation_types := []
    lexical_relations := []
    synset_relations := [] }

/-- `parse_lexical_unit` from the `gen_parser!` expansion. -/
def parse_lexical_unit (attrs : List (String × String)) :
    Except Panic LexicalUnit :=
  match bindNat attrs "id" with
  | .error p => .error p
  | .ok id =>
    match bindInt attrs "tagcount" with
    | .error p => .error p
    | .ok tagcount =>
      match bindInt attrs "variant" with
      | .error p => .error p
      | .ok variant =>
          .ok { id := id
                name := bindStr attrs "name"
                pos := bindStr attrs "pos"
                tagcount := tagcount
                domain := bindStr attrs "domain"
                desc := bindStr attrs "desc"
                workstate := bindStr attrs "workstate"
                source := bindStr attrs "source"
                variant := variant
                language := bindStr attrs "language" }

/-- `parse_synset` from the `gen_parser!` expansion (`abstract_` bound from
the attribute named `abstract`; member list initialized empty). -/
def parse_synset (attrs : List (String × String)) : Except Panic Synset :=
  match bindNat attrs "id" with
  | .error p => .error p
  | .ok id =>
    match bindInt attrs "split" with
    | .error p => .error p
    | .ok split =>
        .ok { id := id
              workstate := bindStr attrs "workstate"
              split := split
              owner := bindStr attrs "owner"
              definition := bindStr attrs "definition"
              desc := bindStr attrs "desc"
              abstract_ := bindBool attrs "abstract"
              lexical_units := [] }

/-- `parse_relation_type` from the `gen_parser!` expansion (`type_` bound
from the attribute named `type`; test list initialized empty). -/
def parse_relation_type (attrs : List (String × String)) :
    Except Panic RelationType :=
  match bindNat attrs "id" with
  | .error p => .error p
  | .ok id =>
    match bindNat attrs "reverse" with
    | .error p => .error p
    | .ok reverse =>
        .ok { id := id
              type_ := bindStr attrs "type"
              reverse := reverse
              name := bindStr attrs "name"
              description := bindStr attrs "description"
              posstr := bindStr attrs "posstr"
              display := bindStr attrs "display"
              shortcut := bindStr attrs "shortcut"
              autoreverse := bindBool attrs "autoreverse"
              pwn := bindStr attrs "pwn"
              tests := [] }

/-- `parse_relation_type_test` (two text fields; cannot fail). -/
def parse_relation_type_test (attrs : List (String × String)) :
    RelationTypeTest :=
  { text := bindStr attrs "text"
    pos := bindStr attrs "pos" }

/-- `parse_lexical_relation` from the `gen_parser!` expansion. -/
def parse_lexical_relation (attrs : List (String × String)) :
    Except Panic LexicalRelation :=
  match bindNat attrs "parent" with
  | .error p => .error p
  | .ok parent =>
    match bindNat attrs "child" with
    | .error p => .error p
    | .ok child =>
      match bindNat attrs "relation" with
      | .error p => .error p
      | .ok relation =>
          .ok { parent := parent
                child := child
                relation := relation
                valid := bindBool attrs "valid"
                owner := bindStr attrs "owner" }

/-- `parse_synset_relation` from the `gen_parser!` expansion. -/
def parse_synset_relation (attrs : List (String × String)) :
    Except Panic SynsetRelation :=
  match bindNat attrs "parent" with
  | .error p => .error p
  | .ok parent =>
    match bindNat attrs "child" with
    | .error p => .error p
    | .ok child =>
      match bindNat attrs "relation" with
      | .error p => .error p
      | .ok relation =>
          .ok { parent := parent
                child := child
                relation := relation
                valid := bindBool attrs "valid"
                owner := bindStr attrs "owner" }

/-! ### Parsing state machine (`from_file` in `src/parser.rs`)

The event-level core of `from_file`: the stream of quick_xml events is a
`List Event` (the list ends where `Event::Eof` breaks the loop; event kinds
the source's catch-all arm ignores — CData, comments, declarations — are
`other`). -/

/-- One quick_xml event as consumed by `from_file`. -/
inductive Event where
  | start (tag : String) (attrs : List (String × String))
  | empty (tag : String) (attrs : List (String × String))
  | text (content : String)
  | endTag (tag : String)
  | other
deriving DecidableEq, Repr

/-- `ParsingContext` from `parser.rs`. -/
inductive ParsingContext where
  | none
  | synset (id : Nat)
  | relationType (id : Nat)
deriving DecidableEq, Repr

/-- The loop's mutable locals: `root` and `context`. -/
structure ParserState where
  root : Option PlWordNet
  context : ParsingContext
deriving DecidableEq, Repr

/-- Initial loop state: `root = None`, `context = ParsingContext::None`. -/
def initState : ParserState :=
  { root := Option.none, context := .none }

/-- The lexical-unit arm of the `Event::Empty` match: bind the record, then
overwrite `language` from the `pos` suffix rule. -/
def bindLexicalUnit (attrs : List (String × String)) :
    Except Panic LexicalUnit :=
  match parse_lexical_unit attrs with
  | .error p => .error p
  | .ok d =>
      .ok { d with language := if strEndsWith d.pos " pwn" then "en" else "pl" }

/-- One iteration of the `from_file` event loop. -/
def step (st : ParserState) (ev : Event) : Except Panic ParserState :=
  match ev with
  | .empty tag attrs =>
      if tag = "lexical-unit" then
        match bindLexicalUnit attrs with
        | .error p => .error p
        | .ok data =>
            match st.root with
            | Option.none => .error .unwrapNone
            | some r =>
                .ok { st with root := some { r with
                        lexical_units := insertEntry r.lexical_units data.id data } }
      else if tag = "test" then
        let data := parse_relation_type_test attrs
        match st.context with
        | .relationType id =>
            match st.root with
            | Option.none => .error .unwrapNone
            | some r =>
                .ok { st with root := some { r with
                        relation_types := modifyEntry r.relation_types id
                          (fun e => { e with tests := e.tests ++ [data] }) } }
        | _ => .error .unreachableCode
      else if tag = "lexicalrelations" then
        match parse_lexical_relation attrs with
        | .error p => .error p
        | .ok data =>
            match st.root with
            | Option.none => .error .unwrapNone
            | some r =>
                .ok { st with root := some { r with
                        lexical_relations := r.lexical_relations ++ [data] } }
      else if tag = "synsetrelations" then
        match parse_synset_relation attrs with
        | .error p => .error p
        | .ok data =>
            match st.root with
            | Option.none => .error .unwrapNone
            | some r =>
                .ok { st with root := some { r with
                        synset_relations := r.synset_relations ++ [data] } }
      else if tag = "relationtypes" then
        match parse_relation_type attrs with
        | .error p => .error p
        | .ok data =>
            match st.root with
            | Option.none => .error .unwrapNone
            | some r =>
                .ok { st with root := some { r with
                        relation_types := insertEntry r.relation_types data.id data } }
      else
        .ok st
  | .start tag attrs =>
      if tag = "array-list" then
        .ok { st with root := some (parse_array_list attrs) }
      else if tag = "synset" then
        match parse_synset attrs with
        | .error p => .error p
        | .ok data =>
            match st.root with
            | Option.none => .error .unwrapNone
            | some r =>
                .ok { root := some { r with
                        synsets := insertEntry r.synsets data.id data }
                      context := .synset data.id }
      else if tag = "relationtypes" then
        match parse_relation_type attrs with
        | .error p => .error p
        | .ok data =>
            match st.root with
            | Option.none => .error .unwrapNone
            | some r =>
                .ok { root := some { r with
                        relation_types := insertEntry r.relation_types data.id data }
                      context := .relationType data.id }
      else if tag = "unit-id" then
        .ok st
      else
        .error .unreachableCode
  | .text content =>
      match st.context with
      | .synset id =>
          let t := strTrim content
          if t = "" then .ok st
          else
            match cast_usize t with
            | .error p => .error p
            | .ok n =>
                match st.root with
                | Option.none => .error .unwrapNone
                | some r =>
                    .ok { st with root := some { r with
                            synsets := modifyEntry r.synsets id
                              (fun e => { e with
                                lexical_units := e.lexical_units ++ [n] }) } }
      | _ => .ok st
  | .endTag _ => .ok st
  | .other => .ok st

/-- The event loop from the current state to the end of the stream. -/
def parseLoop : List Event → ParserState → Except Panic ParserState
  | [], st => .ok st
  | ev :: rest, st =>
      match step st ev with
      | .error p => .error p
      | .ok st' => parseLoop rest st'

/-- The event-level core of `from_file`: run the loop, then `Ok(root.unwrap())`. -/
def parse (evs : List Event) : Except Panic PlWordNet :=
  match parseLoop evs initState with
  | .error p => .error p
  | .ok st =>
      match st.root with
      | Option.none => .error .unwrapNone
      | some r => .ok r

/-! ### View layer (`src/logic.rs`)

The `*View` struct declarations themselves are in a part of `model.rs` not
present in the source snapshot; their fields are taken verbatim from the
construction sites in `logic.rs` (which is present).  Borrowed `&str` fields
are modelled as owned `String`s; that changes no observable value. -/

/-- `LexicalUnitView`: fields as constructed by `From<&LexicalUnit>` in
`logic.rs`. -/
structure LexicalUnitView where
  id : Nat
  name : String
  pos : String
  tagcount : Int
  domain : String
  desc : String
  workstate : String
  source : String
  variant : Int
  language : Language
deriving DecidableEq, Repr

/-- `SynsetView`: fields as constructed by `synset_to_view` in `logic.rs`. -/
structure SynsetView where
  id : Nat
  workstate : String
  split : Int
  owner : String
  definition : String
  desc : String
  abstract_ : Bool
  lexical_units : List LexicalUnitView
  language : Language
deriving DecidableEq, Repr

/-- `RelationTypeView`: fields as constructed by `From<&RelationType>` in
`logic.rs` (the test list is not exposed). -/
structure RelationTypeView where
  id : Nat
  type_ : String
  reverse : Nat
  name : String
  description : String
  posstr : String
  display : String
  shortcut : String
  autoreverse : Bool
  pwn : String
deriving DecidableEq, Repr

/-- `SynsetRelationView`: fields as constructed by `iter_synset_relations`. -/
structure SynsetRelationView where
  parent : Option SynsetView
  child : Option SynsetView
  relation : Option RelationTypeView
  valid : Bool
  owner : String
deriving DecidableEq, Repr

/-- `LexicalRelationView`: fields as constructed by `iter_lexical_relations`. -/
structure LexicalRelationView where
  parent : Option LexicalUnitView
  child : Option LexicalUnitView
  relation : Option RelationTypeView
  valid : Bool
  owner : String
deriving DecidableEq, Repr

/-- `From<&LexicalUnit> for LexicalUnitView`: scalar fields copied, `language`
recomputed from the `pos` suffix rule. -/
def luView (lu : LexicalUnit) : LexicalUnitView :=
  { id := lu.id
    name := lu.name
    pos := lu.pos
    tagcount := lu.tagcount
    domain := lu.domain
    desc := lu.desc
    workstate := lu.workstate
    source := lu.source
    variant := lu.variant
    language := if strEndsWith lu.pos " pwn" then .EN else .PL }

/-- `PlWordNet::get_lexical_unit`. -/
def get_lexical_unit (w : PlWordNet) (id : Nat) : Option LexicalUnitView :=
  (lookupEntry w.lexical_units id).map luView

/-- `synset_to_view` from `logic.rs`: dangling member ids are dropped by
`filter_map`; the view language is the first resolved member's language,
defaulting to Polish. -/
def synset_to_view (w : PlWordNet) (s : Synset) : SynsetView :=
  let lus := s.lexical_units.filterMap (get_lexical_unit w)
  { id := s.id
    workstate := s.workstate
    split := s.split
    owner := s.owner
    definition := s.definition
    desc := s.desc
    abstract_ := s.abstract_
    lexical_units := lus
    language :=
      match lus.head? with
      | some v => v.language
      | Option.none => .PL }

/-- `PlWordNet::get_synset`. -/
def get_synset (w : PlWordNet) (id : Nat) : Option SynsetView :=
  (lookupEntry w.synsets id).map (synset_to_view w)

/-- `From<&RelationType> for RelationTypeView`. -/
def rtView (rt : RelationType) : RelationTypeView :=
  { id := rt.id
    type_ := rt.type_
    reverse := rt.reverse
    name := rt.name
    description := rt.description
    posstr := rt.posstr
    display := rt.display
    shortcut := rt.shortcut
    autoreverse := rt.autoreverse
    pwn := rt.pwn }

/-- `PlWordNet::get_relation_type`. -/
def get_relation_type (w : PlWordNet) (id : Nat) : Option RelationTypeView :=
  (lookupEntry w.relation_types id).map rtView

/-- `PlWordNet::iter_synset_relations` (collected to a list). -/
def iter_synset_relations (w : PlWordNet) : List SynsetRelationView :=
  w.synset_relations.map fun lr =>
    { parent := get_synset w lr.parent
      child := get_synset w lr.child
      relation := get_relation_type w lr.relation
      valid := lr.valid
      owner := lr.owner }

/-- `PlWordNet::iter_lexical_relations` (collected to a list). -/
def iter_lexical_relations (w : PlWordNet) : List LexicalRelationView :=
  w.lexical_relations.map fun lr =>
    { parent := get_lexical_unit w lr.parent
      child := get_lexical_unit w lr.child
      relation := get_relation_type w lr.relation
      valid := lr.valid
      owner := lr.owner }

/-! ### Query functions of `src/model.rs` -/

/-- The `is_polish` closure in `filter_synsets_by_lang`:
`self.lexical_units.get(lu_id).unwrap().language.eq("pl")` — the `unwrap`
panics when the member id is dangling. -/
def is_polish (w : PlWordNet) (luId : Nat) : Except Panic Bool :=
  match lookupEntry w.lexical_units luId with
  | Option.none => .error .unwrapNone
  | some lu => .ok (lu.language = "pl")

/-- `s.lexical_units.iter().all(is_polish)`: short-circuits at the first
non-Polish member, panicking at the first dangling id it examines. -/
def all_polish (w : PlWordNet) : List Nat → Except Panic Bool
  | [] => .ok true
  | i :: rest =>
      match is_polish w i with
      | .error p => .error p
      | .ok true => all_polish w rest
      | .ok false => .ok false

/-- Body of `filter_synsets_by_lang` over the synset entries. -/
def filter_synsets_go (w : PlWordNet) (lang : Language) :
    List (Nat × Synset) → Except Panic (List Synset)
  | [] => .ok []
  | (_, s) :: rest =>
      match all_polish w s.lexical_units with
      | .error p => .error p
      | .ok b =>
          match filter_synsets_go w lang rest with
          | .error p => .error p
          | .ok tl =>
              .ok (if (match lang with | .PL => b | .EN => !b) then s :: tl else tl)

/-- `PlWordNet::filter_synsets_by_lang` (iterator collected to a list). -/
def filter_synsets_by_lang (w : PlWordNet) (lang : Language) :
    Except Panic (List Synset) :=
  filter_synsets_go w lang w.synsets

/-- `LexicalUnit::to_simple`: the unit's name. -/
def to_simple (lu : LexicalUnit) : String := lu.name

/-- `PlWordNet::synset_to_simple`: `self.synsets.get(&id).unwrap()` panics on
an unknown synset id; resolved members are comma-joined, dangling members are
dropped by `filter_map`. -/
def synset_to_simple (w : PlWordNet) (id : Nat) : Except Panic String :=
  match lookupEntry w.synsets id with
  | Option.none => .error .unwrapNone
  | some s =>
      .ok ((s.lexical_units.filterMap (lookupEntry w.lexical_units)).foldl
        (fun buf lu =>
          (if buf.length > 0 then buf ++ "," else buf) ++ to_simple lu) "")

/-! ### Concrete documents for the literal-example claims -/

/-- Event stream of the C1 example document: two lexical units and one synset
whose character data `1 2` arrives as the chunks `"1"` and `"2"` (each id
`unit-id`-wrapped, as in the source corpus; interleaved whitespace chunks are
skipped by the trim-and-continue arm). -/
def doc1 : List Event :=
  [.start "array-list" [("owner", "UKSW"), ("date", "2024"), ("version", "4.2")],
   .empty "lexical-unit" [("id", "1"), ("name", "kot"), ("pos", "noun")],
   .empty "lexical-unit" [("id", "2"), ("name", "cat"), ("pos", "noun pwn")],
   .start "synset" [("id", "100")],
   .text "\n ",
   .start "unit-id" [], .text "1", .endTag "unit-id",
   .text " ",
   .start "unit-id" [], .text "2", .endTag "unit-id",
   .endTag "synset"]

/-- The lexical unit bound for `id=1 name="kot" pos="noun"`. -/
def kotLU : LexicalUnit :=
  { id := 1, name := "kot", pos := "noun", tagcount := 0, domain := ""
    desc := "", workstate := "", source := "", variant := 0, language := "pl" }

/-- The lexical unit bound for `id=2 name="cat" pos="noun pwn"`. -/
def catLU : LexicalUnit :=
  { id := 2, name := "cat", pos := "noun pwn", tagcount := 0, domain := ""
    desc := "", workstate := "", source := "", variant := 0, language := "en" }

/-- The synset bound for `id=100` with text members `1 2`. -/
def syn100 : Synset :=
  { id := 100, workstate := "", split := 0, owner := "", definition := ""
    desc := "", abstract_ := false, lexical_units := [1, 2] }

/-- The store produced by parsing `doc1`. -/
def store1 : PlWordNet :=
  { owner := "UKSW", date := "2024", version := "4.2"
    lexical_units := [(1, kotLU), (2, catLU)]
    synsets := [(100, syn100)]
    relation_types := [], lexical_relations := [], synset_relations := [] }

/-- View of `kotLU`. -/
def kotV : LexicalUnitView := luView kotLU

/-- View of `catLU`. -/
def catV : LexicalUnitView := luView catLU

/-- Expected synset view for id 100 in `store1`. -/
def synV100 : SynsetView :=
  { id := 100, workstate := "", split := 0, owner := "", definition := ""
    desc := "", abstract_ := false, lexical_units := [kotV, catV]
    language := .PL }

/-- Event stream of the C8 example document: synset 100 exists, and one
`synsetrelations` edge `parent=100 child=999 relation=5 valid="true"
owner="x"` where neither synset 999 nor relation type 5 exists. -/
def doc8 : List Event :=
  [.start "array-list" [],
   .start "synset" [("id", "100")],
   .endTag "synset",
   .empty "synsetrelations"
     [("parent", "100"), ("child", "999"), ("relation", "5"),
      ("valid", "true"), ("owner", "x")]]

/-- The synset bound for `id=100` in `doc8` (no members). -/
def syn100e : Synset :=
  { id := 100, workstate := "", split := 0, owner := "", definition := ""
    desc := "", abstract_ := false, lexical_units := [] }

/-- The store produced by parsing `doc8`. -/
def store8 : PlWordNet :=
  { owner := "", date := "", version := ""
    lexical_units := []
    synsets := [(100, syn100e)]
    relation_types := [], lexical_relations := []
    synset_relations :=
      [{ parent := 100, child := 999, relation := 5, valid := true, owner := "x" }] }

/-- Expected view of synset 100 in `store8`. -/
def synV100e : SynsetView :=
  { id := 100, workstate := "", split := 0, owner := "", definition := ""
    desc := "", abstract_ := false, lexical_units := [], language := .PL }

/-- Prefix of the C5 document: a synset is opened and closed. -/
def doc5pre : List Event :=
  [.start "array-list" [], .start "synset" [("id", "1")], .endTag "synset"]

/-- The C5 document: a numeric text chunk AFTER the synset's end element. -/
def doc5 : List Event := doc5pre ++ [.text "7"]

/-- Synset 1 as bound from its attributes (no members yet). -/
def syn5a : Synset :=
  { id := 1, workstate := "", split := 0, owner := "", definition := ""
    desc := "", abstract_ := false, lexical_units := [] }

/-- Store after `doc5pre`. -/
def store5pre : PlWordNet :=
  { owner := "", date := "", version := ""
    lexical_units := [], synsets := [(1, syn5a)], relation_types := []
    lexical_relations := [], synset_relations := [] }

/-- Store after `doc5`: the stray text chunk landed in synset 1. -/
def store5 : PlWordNet :=
  { store5pre with synsets := [(1, { syn5a with lexical_units := [7] })] }

/-- The C4 document: synset 1 has the dangling member id 999 and the store
holds no lexical units at all. -/
def doc4 : List Event :=
  [.start "array-list" [], .start "synset" [("id", "1")],
   .text "999", .endTag "synset"]

/-- Store produced by `doc4`. -/
def store4 : PlWordNet :=
  { owner := "", date := "", version := ""
    lexical_units := []
    synsets := [(1, { id := 1, workstate := "", split := 0, owner := ""
                      definition := "", desc := "", abstract_ := false
                      lexical_units := [999] })]
    relation_types := [], lexical_relations := [], synset_relations := [] }

/-- A synset whose member list mixes a resolving id (1) and a dangling id
(999), used against `store1`. -/
def syn4w : Synset :=
  { id := 100, workstate := "", split := 0, owner := "", definition := ""
    desc := "", abstract_ := false, lexical_units := [1, 999] }

/-- The C7 document: an unknown tag in self-closing shape after the root. -/
def doc7 : List Event :=
  [.start "array-list" [], .empty "bogus" [("x", "y")]]

/-- A fully empty store (root bound from an attribute-less `array-list`). -/
def store0 : PlWordNet :=
  { owner := "", date := "", version := ""
    lexical_units := [], synsets := [], relation_types := []
    lexical_relations := [], synset_relations := [] }

/-- Binder result for a lexical-unit element carrying only `id="1"`. -/
def lu3 : LexicalUnit :=
  { id := 1, name := "", pos := "", tagcount := 0, domain := "", desc := ""
    workstate := "", source := "", variant := 0, language := "" }

/-- The C9 document: one entity of each node-like kind. -/
def doc9 : List Event :=
  [.start "array-list" [],
   .empty "lexical-unit" [("id", "3")],
   .start "synset" [("id", "4")],
   .empty "relationtypes" [("id", "6")]]

/-- Store produced by `doc9`. -/
def store9 : PlWordNet :=
  { owner := "", date := "", version := ""
    lexical_units := [(3, { id := 3, name := "", pos := "", tagcount := 0
                            domain := "", desc := "", workstate := ""
                            source := "", variant := 0, language := "pl" })]
    synsets := [(4, { id := 4, workstate := "", split := 0, owner := ""
                      definition := "", desc := "", abstract_ := false
                      lexical_units := [] })]
    relation_types := [(6, { id := 6, type_ := "", reverse := 0, name := ""
                             description := "", posstr := "", display := ""
                             shortcut := "", autoreverse := false, pwn := ""
                             tests := [] })]
    lexical_relations := [], synset_relations := [] }

/-- Loop state after `doc9`. -/
def st9 : ParserState := { root := some store9, context := .synset 4 }

/-- The C10 document: duplicate ids within each node-like kind — lexical-unit
id 1 twice, synset id 5 twice, relationtypes id 7 twice. -/
def docDup : List Event :=
  [.start "array-list" [],
   .empty "lexical-unit" [("id", "1"), ("name", "kot")],
   .empty "lexical-unit" [("id", "1"), ("name", "cat"), ("pos", "noun pwn")],
   .start "synset" [("id", "5"), ("owner", "a")], .endTag "synset",
   .start "synset" [("id", "5"), ("owner", "b")], .endTag "synset",
   .empty "relationtypes" [("id", "7"), ("name", "hiper")],
   .empty "relationtypes" [("id", "7"), ("name", "hipo")]]

/-- The last lexical-unit with id 1 in `docDup`. -/
def lu10b : LexicalUnit :=
  { id := 1, name := "cat", pos := "noun pwn", tagcount := 0, domain := ""
    desc := "", workstate := "", source := "", variant := 0, language := "en" }

/-- The last synset with id 5 in `docDup`. -/
def syn10b : Synset :=
  { id := 5, workstate := "", split := 0, owner := "b", definition := ""
    desc := "", abstract_ := false, lexical_units := [] }

/-- The last relation type with id 7 in `docDup`. -/
def rt10b : RelationType :=
  { id := 7, type_ := "", reverse := 0, name := "hipo", description := ""
    posstr := "", display := "", shortcut := "", autoreverse := false
    pwn := "", tests := [] }

/-- Store produced by `docDup`: one entry per id, each from the last element. -/
def storeDup : PlWordNet :=
  { owner := "", date := "", version := ""
    lexical_units := [(1, lu10b)]
    synsets := [(5, syn10b)]
    relation_types := [(7, rt10b)]
    lexical_relations := [], synset_relations := [] }

/-! ### Parse-time invariants and the lexical-unit insertion trace -/

/-- A stored lexical unit's `language` agrees with the parse-time suffix rule. -/
def LuLangOK (lu : LexicalUnit) : Prop :=
  lu.language = (if strEndsWith lu.pos " pwn" then "en" else "pl")

/-- Invariant of every store the parser builds: map keys equal the stored
entity's id, keys are unique, and stored languages follow the suffix rule. -/
def StoreOK (r : PlWordNet) : Prop :=
  keysMatch r.lexical_units LexicalUnit.id ∧
  keysMatch r.synsets Synset.id ∧
  keysMatch r.relation_types RelationType.id ∧
  nodupKeys r.lexical_units ∧
  nodupKeys r.synsets ∧
  nodupKeys r.relation_types ∧
  (∀ p ∈ r.lexical_units, LuLangOK p.2)

/-- Loop-state form of `StoreOK` (vacuous before the root is opened). -/
def StateOK (st : ParserState) : Prop :=
  ∀ r, st.root = some r → StoreOK r

/-- How one event changes the lexical unit most recently inserted under key
`i`: a lexical-unit element with that bound id replaces it, a fresh root
clears it, everything else leaves it. -/
def luTraceStep (i : Nat) (acc : Option LexicalUnit) (ev : Event) :
    Option LexicalUnit :=
  match ev with
  | .empty tag attrs =>
      if tag = "lexical-unit" then
        match bindLexicalUnit attrs with
        | .ok lu => if lu.id = i then some lu else acc
        | .error _ => acc
      else acc
  | .start tag _ => if tag = "array-list" then Option.none else acc
  | _ => acc

/-- The lexical unit left under key `i` after a run of events. -/
def luTrace (i : Nat) : List Event → Option LexicalUnit → Option LexicalUnit
  | [], acc => acc
  | ev :: rest, acc => luTrace i rest (luTraceStep i acc ev)

/-- Lookup of key `i` in the loop state's lexical-unit map. -/
def rootLU (st : ParserState) (i : Nat) : Option LexicalUnit :=
  match st.root with
  | Option.none => Option.none
  | some r => lookupEntry r.lexical_units i

/-! ### Lemmas about the association-list map operations -/

theorem lookup_insertEntry {α : Type} (m : List (Nat × α)) (k : Nat) (v : α)
    (i : Nat) :
    lookupEntry (insertEntry m k v) i =
      if i = k then some v else lookupEntry m i := by
  induction m with
  | nil =>
      by_cases h : i = k
      · simp [insertEntry, lookupEntry, h]
      · simp [insertEntry, lookupEntry, h, Ne.symm h]
  | cons hd tl ih =>
      obtain ⟨k', v'⟩ := hd
      by_cases hk : k' = k
      · subst hk
        by_cases h : i = k' <;> simp [insertEntry, lookupEntry, h, eq_comm]
      · by_cases h : k' = i
        · subst h
          have : ¬(k' = k) := hk
          simp [insertEntry, hk, lookupEntry, Ne.symm hk]
        · simp [insertEntry, hk, lookupEntry, h, ih]

theorem mem_insertEntry {α : Type} {p : Nat × α} {m : List (Nat × α)}
    {k : Nat} {v : α} (h : p ∈ insertEntry m k v) : p = (k, v) ∨ p ∈ m := by
  induction m with
  | nil => simpa [insertEntry] using h
  | cons hd tl ih =>
      obtain ⟨k', v'⟩ := hd
      by_cases hk : k' = k
      · simp [insertEntry, hk] at h
        rcases h with h | h
        · exact Or.inl (by simp [h])
        · exact Or.inr (by simp [h])
      · simp [insertEntry, hk] at h
        rcases h with h | h
        · exact Or.inr (by simp [h])
        · rcases ih h with h' | h'
          · exact Or.inl h'
          · exact Or.inr (by simp [h'])

theorem keys_insertEntry {α : Type} {a : Nat} {m : List (Nat × α)} {k : Nat}
    {v : α} (h : a ∈ (insertEntry m k v).map Prod.fst) :
    a = k ∨ a ∈ m.map Prod.fst := by
  simp only [List.mem_map] at h
  obtain ⟨p, hp, rfl⟩ := h
  rcases mem_insertEntry hp with h' | h'
  · exact Or.inl (by simp [h'])
  · exact Or.inr (List.mem_map_of_mem _ h')

theorem nodupKeys_insertEntry {α : Type} {m : List (Nat × α)} {k : Nat}
    {v : α} (h : nodupKeys m) : nodupKeys (insertEntry m k v) := by
  induction m with
  | nil => simp [insertEntry, nodupKeys]
  | cons hd tl ih =>
      obtain ⟨k', v'⟩ := hd
      simp only [nodupKeys, List.map_cons, List.nodup_cons] at h
      by_cases hk : k' = k
      · subst hk
        simpa [insertEntry, nodupKeys] using h
      · have htl := ih h.2
        simp only [insertEntry, if_neg hk, nodupKeys, List.map_cons,
          List.nodup_cons]
        refine ⟨fun hmem => ?_, htl⟩
        rcases keys_insertEntry hmem with h' | h'
        · exact hk h'
        · exact h.1 h'

theorem keys_modifyEntry {α : Type} (m : List (Nat × α)) (k : Nat)
    (f : α → α) : (modifyEntry m k f).map Prod.fst = m.map Prod.fst := by
  induction m with
  | nil => simp [modifyEntry]
  | cons hd tl ih =>
      obtain ⟨k', v'⟩ := hd
      by_cases hk : k' = k <;> simp [modifyEntry, hk, ih]

theorem nodupKeys_modifyEntry {α : Type} {m : List (Nat × α)} {k : Nat}
    {f : α → α} (h : nodupKeys m) : nodupKeys (modifyEntry m k f) := by
  simpa [nodupKeys, keys_modifyEntry] using h

theorem mem_modifyEntry {α : Type} {p : Nat × α} {m : List (Nat × α)}
    {k : Nat} {f : α → α} (h : p ∈ modifyEntry m k f) :
    p ∈ m ∨ ∃ q ∈ m, p = (q.1, f q.2) := by
  induction m with
  | nil => simp [modifyEntry] at h
  | cons hd tl ih =>
      obtain ⟨k', v'⟩ := hd
      by_cases hk : k' = k
      · subst hk
        simp [modifyEntry] at h
        rcases h with h | h
        · exact Or.inr ⟨(k', v'), by simp, by simp [h]⟩
        · exact Or.inl (by simp [h])
      · simp [modifyEntry, hk] at h
        rcases h with h | h
        · exact Or.inl (by simp [h])
        · rcases ih h with h' | ⟨q, hq, hpq⟩
          · exact Or.inl (by simp [h'])
          · exact Or.inr ⟨q, by simp [hq], hpq⟩

theorem lookupEntry_mem {α : Type} {m : List (Nat × α)} {i : Nat} {v : α}
    (h : lookupEntry m i = some v) : (i, v) ∈ m := by
  induction m with
  | nil => simp [lookupEntry] at h
  | cons hd tl ih =>
      obtain ⟨k', v'⟩ := hd
      by_cases hk : k' = i
      · subst hk
        simp [lookupEntry] at h
        simp [h]
      · simp [lookupEntry, hk] at h
        simp [ih h]

theorem keysMatch_insertEntry {α : Type} {m : List (Nat × α)}
    {getId : α → Nat} {k : Nat} {v : α} (hm : keysMatch m getId)
    (hv : getId v = k) : keysMatch (insertEntry m k v) getId := by
  intro p hp
  rcases mem_insertEntry hp with h | h
  · subst h; simpa using hv
  · exact hm p h

theorem keysMatch_modifyEntry {α : Type} {m : List (Nat × α)}
    {getId : α → Nat} {k : Nat} {f : α → α} (hm : keysMatch m getId)
    (hf : ∀ x, getId (f x) = getId x) : keysMatch (modifyEntry m k f) getId := by
  intro p hp
  rcases mem_modifyEntry hp with h | ⟨q, hq, rfl⟩
  · exact hm p h
  · simpa [hf] using hm q hq

theorem forall_insertEntry {α : Type} {P : α → Prop} {m : List (Nat × α)}
    {k : Nat} {v : α} (hm : ∀ p ∈ m, P p.2) (hv : P v) :
    ∀ p ∈ insertEntry m k v, P p.2 := by
  intro p hp
  rcases mem_insertEntry hp with h | h
  · subst h; simpa using hv
  · exact hm p h

/-! ### Preservation of `StoreOK` along the parse -/

theorem bindLexicalUnit_lang {attrs : List (String × String)}
    {d : LexicalUnit} (h : bindLexicalUnit attrs = .ok d) : LuLangOK d := by
  unfold bindLexicalUnit at h
  cases hp : parse_lexical_unit attrs with
  | error p => rw [hp] at h; exact Except.noConfusion h
  | ok d₀ =>
      rw [hp] at h
      obtain rfl := Except.ok.inj h
      rfl

theorem storeOK_array (attrs : List (String × String)) :
    StoreOK (parse_array_list attrs) := by
  refine ⟨?_, ?_, ?_, ?_, ?_, ?_, ?_⟩ <;>
    simp [parse_array_list, keysMatch, nodupKeys]

theorem storeOK_insLU {r : PlWordNet} {lu : LexicalUnit} (h : StoreOK r)
    (hl : LuLangOK lu) :
    StoreOK { r with lexical_units := insertEntry r.lexical_units lu.id lu } := by
  obtain ⟨h1, h2, h3, h4, h5, h6, h7⟩ := h
  exact ⟨keysMatch_insertEntry h1 rfl, h2, h3, nodupKeys_insertEntry h4, h5, h6,
    forall_insertEntry h7 hl⟩

theorem storeOK_insSyn {r : PlWordNet} {s : Synset} (h : StoreOK r) :
    StoreOK { r with synsets := insertEntry r.synsets s.id s } := by
  obtain ⟨h1, h2, h3, h4, h5, h6, h7⟩ := h
  exact ⟨h1, keysMatch_insertEntry h2 rfl, h3, h4, nodupKeys_insertEntry h5, h6, h7⟩

theorem storeOK_insRT {r : PlWordNet} {rt : RelationType} (h : StoreOK r) :
    StoreOK { r with relation_types := insertEntry r.relation_types rt.id rt } := by
  obtain ⟨h1, h2, h3, h4, h5, h6, h7⟩ := h
  exact ⟨h1, h2, keysMatch_insertEntry h3 rfl, h4, h5, nodupKeys_insertEntry h6, h7⟩

theorem storeOK_modSyn {r : PlWordNet} {i : Nat} {f : Synset → Synset}
    (h : StoreOK r) (hf : ∀ x, Synset.id (f x) = Synset.id x) :
    StoreOK { r with synsets := modifyEntry r.synsets i f } := by
  obtain ⟨h1, h2, h3, h4, h5, h6, h7⟩ := h
  exact ⟨h1, keysMatch_modifyEntry h2 hf, h3, h4, nodupKeys_modifyEntry h5, h6, h7⟩

theorem storeOK_modRT {r : PlWordNet} {i : Nat}
    {f : RelationType → RelationType} (h : StoreOK r)
    (hf : ∀ x, RelationType.id (f x) = RelationType.id x) :
    StoreOK { r with relation_types := modifyEntry r.relation_types i f } := by
  obtain ⟨h1, h2, h3, h4, h5, h6, h7⟩ := h
  exact ⟨h1, h2, keysMatch_modifyEntry h3 hf, h4, h5, nodupKeys_modifyEntry h6, h7⟩

theorem step_StateOK {st st' : ParserState} {ev : Event}
    (h : step st ev = .ok st') (hst : StateOK st) : StateOK st' := by
  cases ev with
  | empty tag attrs =>
      simp only [step] at h
      split at h
      · -- lexical-unit
        split at h
        · exact Except.noConfusion h
        · next data hdata =>
            split at h
            · exact Except.noConfusion h
            · next r hr =>
                obtain rfl := Except.ok.inj h
                intro r' hr'
                obtain rfl := Option.some.inj hr'
                exact storeOK_insLU (hst r hr) (bindLexicalUnit_lang hdata)
      · split at h
        · -- test
          split at h
          · next i =>
              split at h
              · exact Except.noConfusion h
              · next r hr =>
                  obtain rfl := Except.ok.inj h
                  intro r' hr'
                  obtain rfl := Option.some.inj hr'
                  exact storeOK_modRT (hst r hr) (fun x => rfl)
          · exact Except.noConfusion h
        · split at h
          · -- lexicalrelations
            split at h
            · exact Except.noConfusion h
            · split at h
              · exact Except.noConfusion h
              · next r hr =>
                  obtain rfl := Except.ok.inj h
                  intro r' hr'
                  obtain rfl := Option.some.inj hr'
                  exact hst r hr
          · split at h
            · -- synsetrelations
              split at h
              · exact Except.noConfusion h
              · split at h
                · exact Except.noConfusion h
                · next r hr =>
                    obtain rfl := Except.ok.inj h
                    intro r' hr'
                    obtain rfl := Option.some.inj hr'
                    exact hst r hr
            · split at h
              · -- relationtypes, self-closing
                split at h
                · exact Except.noConfusion h
                · split at h
                  · exact Except.noConfusion h
                  · next r hr =>
                      obtain rfl := Except.ok.inj h
                      intro r' hr'
                      obtain rfl := Option.some.inj hr'
                      exact storeOK_insRT (hst r hr)
              · -- unknown self-closing tag: state unchanged
                obtain rfl := Except.ok.inj h
                exact hst
  | start tag attrs =>
      simp only [step] at h
      split at h
      · -- array-list
        obtain rfl := Except.ok.inj h
        intro r' hr'
        obtain rfl := Option.some.inj hr'
        exact storeOK_array attrs
      · split at h
        · -- synset
          split at h
          · exact Except.noConfusion h
          · split at h
            · exact Except.noConfusion h
            · next r hr =>
                obtain rfl := Except.ok.inj h
                intro r' hr'
                obtain rfl := Option.some.inj hr'
                exact storeOK_insSyn (hst r hr)
        · split at h
          · -- relationtypes, with children
            split at h
            · exact Except.noConfusion h
            · split at h
              · exact Except.noConfusion h
              · next r hr =>
                  obtain rfl := Except.ok.inj h
                  intro r' hr'
                  obtain rfl := Option.some.inj hr'
                  exact storeOK_insRT (hst r hr)
          · split at h
            · -- unit-id
              obtain rfl := Except.ok.inj h
              exact hst
            · exact Except.noConfusion h
  | text content =>
      simp only [step] at h
      split at h
      · -- context = synset i
        next i =>
          split at h
          · obtain rfl := Except.ok.inj h
            exact hst
          · split at h
            · exact Except.noConfusion h
            · split at h
              · exact Except.noConfusion h
              · next r hr =>
                  obtain rfl := Except.ok.inj h
                  intro r' hr'
                  obtain rfl := Option.some.inj hr'
                  exact storeOK_modSyn (hst r hr) (fun x => rfl)
      · obtain rfl := Except.ok.inj h
        exact hst
  | endTag t =>
      obtain rfl := Except.ok.inj h
      exact hst
  | other =>
      obtain rfl := Except.ok.inj h
      exact hst

theorem parseLoop_StateOK :
    ∀ (evs : List Event) (st st' : ParserState),
      parseLoop evs st = .ok st' → StateOK st → StateOK st' := by
  intro evs
  induction evs with
  | nil =>
      intro st st' h hst
      obtain rfl := Except.ok.inj h
      exact hst
  | cons ev rest ih =>
      intro st st' h hst
      simp only [parseLoop] at h
      cases hstep : step st ev with
      | error p => rw [hstep] at h; exact Except.noConfusion h
      | ok st₁ =>
          rw [hstep] at h
          exact ih st₁ st' h (step_StateOK hstep hst)

theorem initState_OK : StateOK initState := by
  intro r hr
  exact Option.noConfusion hr

theorem parse_ok_elim {evs : List Event} {w : PlWordNet}
    (h : parse evs = .ok w) :
    ∃ st, parseLoop evs initState = .ok st ∧ st.root = some w := by
  unfold parse at h
  split at h
  · exact Except.noConfusion h
  · next st hst =>
      split at h
      · exact Except.noConfusion h
      · next r hr =>
          obtain rfl := Except.ok.inj h
          exact ⟨st, hst, hr⟩

theorem parse_StoreOK {evs : List Event} {w : PlWordNet}
    (h : parse evs = .ok w) : StoreOK w := by
  obtain ⟨st, hl, hr⟩ := parse_ok_elim h
  exact parseLoop_StateOK evs initState st hl initState_OK w hr

/-! ### The lexical-unit map tracks the last insertion per key -/

theorem step_rootLU {st st' : ParserState} {ev : Event} (i : Nat)
    (h : step st ev = .ok st') :
    rootLU st' i = luTraceStep i (rootLU st i) ev := by
  cases ev with
  | empty tag attrs =>
      simp only [step] at h
      split at h
      · next htag =>
          split at h
          · exact Except.noConfusion h
          · next data hdata =>
              split at h
              · exact Except.noConfusion h
              · next r hr =>
                  obtain rfl := Except.ok.inj h
                  simp only [rootLU, luTraceStep, htag, if_true, hdata, hr]
                  rw [lookup_insertEntry]
                  by_cases hi : i = data.id
                  · simp [hi]
                  · simp [hi, Ne.symm hi]
      · next htag =>
          have hacc :
              luTraceStep i (rootLU st i) (Event.empty tag attrs) = rootLU st i := by
            simp [luTraceStep, htag]
          rw [hacc]
          split at h
          · split at h
            · next j =>
                split at h
                · exact Except.noConfusion h
                · next r hr =>
                    obtain rfl := Except.ok.inj h
                    simp [rootLU, hr]
            · exact Except.noConfusion h
          · split at h
            · split at h
              · exact Except.noConfusion h
              · split at h
                · exact Except.noConfusion h
                · next r hr =>
                    obtain rfl := Except.ok.inj h
                    simp [rootLU, hr]
            · split at h
              · split at h
                · exact Except.noConfusion h
                · split at h
                  · exact Except.noConfusion h
                  · next r hr =>
                      obtain rfl := Except.ok.inj h
                      simp [rootLU, hr]
              · split at h
                · split at h
                  · exact Except.noConfusion h
                  · split at h
                    · exact Except.noConfusion h
                    · next r hr =>
                        obtain rfl := Except.ok.inj h
                        simp [rootLU, hr]
                · obtain rfl := Except.ok.inj h
                  rfl
  | start tag attrs =>
      simp only [step] at h
      split at h
      · next htag =>
          obtain rfl := Except.ok.inj h
          simp [rootLU, luTraceStep, htag, parse_array_list, lookupEntry]
      · next htag =>
          have hacc :
              luTraceStep i (rootLU st i) (Event.start tag attrs) = rootLU st i := by
            simp [luTraceStep, htag]
          rw [hacc]
          split at h
          · split at h
            · exact Except.noConfusion h
            · split at h
              · exact Except.noConfusion h
              · next r hr =>
                  obtain rfl := Except.ok.inj h
                  simp [rootLU, hr]
          · split at h
            · split at h
              · exact Except.noConfusion h
              · split at h
                · exact Except.noConfusion h
                · next r hr =>
                    obtain rfl := Except.ok.inj h
                    simp [rootLU, hr]
            · split at h
              · obtain rfl := Except.ok.inj h
                rfl
              · exact Except.noConfusion h
  | text content =>
      simp only [step] at h
      have hacc :
          luTraceStep i (rootLU st i) (Event.text content) = rootLU st i := rfl
      rw [hacc]
      split at h
      · next j =>
          split at h
          · obtain rfl := Except.ok.inj h
            rfl
          · split at h
            · exact Except.noConfusion h
            · split at h
              · exact Except.noConfusion h
              · next r hr =>
                  obtain rfl := Except.ok.inj h
                  simp [rootLU, hr]
      · obtain rfl := Except.ok.inj h
        rfl
  | endTag t =>
      obtain rfl := Except.ok.inj h
      rfl
  | other =>
      obtain rfl := Except.ok.inj h
      rfl

theorem parseLoop_rootLU :
    ∀ (evs : List Event) (st st' : ParserState) (i : Nat),
      parseLoop evs st = .ok st' →
      rootLU st' i = luTrace i evs (rootLU st i) := by
  intro evs
  induction evs with
  | nil =>
      intro st st' i h
      obtain rfl := Except.ok.inj h
      rfl
  | cons ev rest ih =>
      intro st st' i h
      simp only [parseLoop] at h
      cases hstep : step st ev with
      | error p => rw [hstep] at h; exact Except.noConfusion h
      | ok st₁ =>
          rw [hstep] at h
          rw [luTrace, ← step_rootLU i hstep]
          exact ih st₁ st' i h

/-! ### Without the root container the loop never builds a store -/

theorem step_noRoot {st : ParserState} {ev : Event}
    (hroot : st.root = Option.none)
    (hne : ∀ attrs, ev ≠ Event.start "array-list" attrs) :
    step st ev = .ok st ∨ ∃ p, step st ev = .error p := by
  cases ev with
  | empty tag attrs =>
      by_cases h1 : tag = "lexical-unit"
      · subst h1
        cases hb : bindLexicalUnit attrs with
        | error p => exact Or.inr ⟨p, by simp [step, hb]⟩
        | ok data => exact Or.inr ⟨.unwrapNone, by simp [step, hb, hroot]⟩
      · by_cases h2 : tag = "test"
        · subst h2
          cases hc : st.context with
          | relationType j =>
              exact Or.inr ⟨.unwrapNone, by simp [step, hc, hroot]⟩
          | none => exact Or.inr ⟨.unreachableCode, by simp [step, hc]⟩
          | synset j => exact Or.inr ⟨.unreachableCode, by simp [step, hc]⟩
        · by_cases h3 : tag = "lexicalrelations"
          · subst h3
            cases hb : parse_lexical_relation attrs with
            | error p => exact Or.inr ⟨p, by simp [step, hb]⟩
            | ok data => exact Or.inr ⟨.unwrapNone, by simp [step, hb, hroot]⟩
          · by_cases h4 : tag = "synsetrelations"
            · subst h4
              cases hb : parse_synset_relation attrs with
              | error p => exact Or.inr ⟨p, by simp [step, hb]⟩
              | ok data => exact Or.inr ⟨.unwrapNone, by simp [step, hb, hroot]⟩
            · by_cases h5 : tag = "relationtypes"
              · subst h5
                cases hb : parse_relation_type attrs with
                | error p => exact Or.inr ⟨p, by simp [step, hb]⟩
                | ok data => exact Or.inr ⟨.unwrapNone, by simp [step, hb, hroot]⟩
              · exact Or.inl (by simp [step, h1, h2, h3, h4, h5])
  | start tag attrs =>
      by_cases h1 : tag = "array-list"
      · subst h1
        exact absurd rfl (hne attrs)
      · by_cases h2 : tag = "synset"
        · subst h2
          cases hb : parse_synset attrs with
          | error p => exact Or.inr ⟨p, by simp [step, hb]⟩
          | ok data => exact Or.inr ⟨.unwrapNone, by simp [step, hb, hroot]⟩
        · by_cases h3 : tag = "relationtypes"
          · subst h3
            cases hb : parse_relation_type attrs with
            | error p => exact Or.inr ⟨p, by simp [step, hb]⟩
            | ok data => exact Or.inr ⟨.unwrapNone, by simp [step, hb, hroot]⟩
          · by_cases h4 : tag = "unit-id"
            · exact Or.inl (by simp [step, h1, h2, h3, h4])
            · exact Or.inr ⟨.unreachableCode, by simp [step, h1, h2, h3, h4]⟩
  | text content =>
      cases hc : st.context with
      | synset j =>
          by_cases ht : strTrim content = ""
          · exact Or.inl (by simp [step, hc, ht])
          · cases hb : cast_usize (strTrim content) with
            | error p => exact Or.inr ⟨p, by simp [step, hc, ht, hb]⟩
            | ok n => exact Or.inr ⟨.unwrapNone, by simp [step, hc, ht, hb, hroot]⟩
      | none => exact Or.inl (by simp [step, hc])
      | relationType j => exact Or.inl (by simp [step, hc])
  | endTag t => exact Or.inl rfl
  | other => exact Or.inl rfl

theorem parseLoop_noRoot :
    ∀ (evs : List Event) (st : ParserState), st.root = Option.none →
      (∀ attrs, Event.start "array-list" attrs ∉ evs) →
      parseLoop evs st = .ok st ∨ ∃ p, parseLoop evs st = .error p := by
  intro evs
  induction evs with
  | nil => intro st _ _; exact Or.inl rfl
  | cons ev rest ih =>
      intro st hroot hn
      have hne : ∀ attrs, ev ≠ Event.start "array-list" attrs := by
        intro attrs heq
        subst heq
        exact hn attrs (List.mem_cons_self _ _)
      have hrest : ∀ attrs, Event.start "array-list" attrs ∉ rest :=
        fun attrs hm => hn attrs (List.mem_cons_of_mem _ hm)
      rcases step_noRoot hroot hne with hok | ⟨p, herr⟩
      · simp only [parseLoop, hok]
        exact ih st hroot hrest
      · simp only [parseLoop, herr]
        exact Or.inr ⟨p, rfl⟩

/-! ### Claim theorems -/

/-- C1: for a document with lexical unit 1 `kot` (pos `noun`), lexical unit 2
`cat` (pos `noun pwn`) and synset 100 whose text content is `1 2` (delivered
as the chunks `"1"` and `"2"`, each wrapped in a `unit-id` element as in the
source corpus), parsing succeeds and `get_synset(100)` yields a view whose
member list is exactly `kot` (Polish) then `cat` (English), the view's
derived language being Polish, from the first member. -/
theorem c1_example_view :
    parse doc1 = .ok store1 ∧
    get_synset store1 100 = some synV100 ∧
    synV100.lexical_units.map (fun v => (v.name, v.language)) =
      [("kot", Language.PL), ("cat", Language.EN)] ∧
    synV100.language = Language.PL := by
  refine ⟨by decide, by decide, by decide, by decide⟩

/-- C2: in every successfully parsed store, a lexical unit's stored language
is `"en"` exactly when its `pos` ends with `" pwn"`, and the view layer's
recomputed `Language` agrees with the stored string, so the two derivations
always coincide. -/
theorem c2_language_iff_pwn_suffix :
    ∀ (evs : List Event) (w : PlWordNet) (i : Nat) (lu : LexicalUnit),
      parse evs = .ok w → lookupEntry w.lexical_units i = some lu →
      (lu.language = (if strEndsWith lu.pos " pwn" then "en" else "pl") ∧
       (lu.language = "en" ↔ strEndsWith lu.pos " pwn" = true) ∧
       ((luView lu).language = Language.EN ↔ lu.language = "en")) := by
  intro evs w i lu h hl
  have hOK := parse_StoreOK h
  have hlang : LuLangOK lu := hOK.2.2.2.2.2.2 (i, lu) (lookupEntry_mem hl)
  unfold LuLangOK at hlang
  refine ⟨hlang, ?_, ?_⟩
  · constructor
    · intro hen
      by_contra hs
      rw [hlang, if_neg hs] at hen
      exact absurd hen (by decide)
    · intro hs
      rw [hlang, if_pos hs]
  · constructor
    · intro hEN
      by_cases hs : strEndsWith lu.pos " pwn" = true
      · rw [hlang, if_pos hs]
      · exfalso
        revert hEN
        simp [luView, hs]
    · intro hen
      have hs : strEndsWith lu.pos " pwn" = true := by
        by_contra hs
        rw [hlang, if_neg hs] at hen
        exact absurd hen (by decide)
      simp [luView, hs]

/-- Witness for C2 at the parsed store of `doc1` and lexical unit 2. -/
theorem c2_language_iff_pwn_suffix_witness :
    catLU.language = (if strEndsWith catLU.pos " pwn" then "en" else "pl") ∧
    (catLU.language = "en" ↔ strEndsWith catLU.pos " pwn" = true) ∧
    ((luView catLU).language = Language.EN ↔ catLU.language = "en") :=
  c2_language_iff_pwn_suffix doc1 store1 2 catLU (by decide) (by decide)

/-- C3 counterexample: a present-but-unparseable numeric attribute aborts the
load, but the failure is `Result::unwrap` on a `ParseIntError` — the very
same `Panic` value for `lexical-unit`/`tagcount`/`"not-a-number"` as for
`synset`/`split`/`"xyz"` — so no `InvalidAttributeValue` report carrying the
tag, field and raw value exists. -/
theorem c3_invalid_attr_counterexample :
    parse_lexical_unit [("id", "1"), ("tagcount", "not-a-number")] =
      .error (.unwrapErr .invalidDigit) ∧
    parse_synset [("id", "7"), ("split", "xyz")] =
      .error (.unwrapErr .invalidDigit) ∧
    parse [.start "array-list" [],
           .empty "lexical-unit" [("id", "1"), ("tagcount", "not-a-number")]] =
      .error (.unwrapErr .invalidDigit) := by
  refine ⟨by decide, by decide, by decide⟩

/-- C3 amended: a lexical-unit element missing `tagcount` binds with
`tagcount = 0`, and a `tagcount` attribute that fails to parse aborts the
load — via an untyped unwrap panic rather than a structured
`InvalidAttributeValue{tag, field, raw}` report. -/
theorem c3_amended_default_vs_panic :
    ∀ (attrs : List (String × String)),
      (∀ lu, getAttr attrs "tagcount" = Option.none →
        parse_lexical_unit attrs = .ok lu → lu.tagcount = 0) ∧
      (getAttr attrs "tagcount" = some "not-a-number" →
        ∃ p, parse_lexical_unit attrs = .error p) := by
  intro attrs
  constructor
  · intro lu hnone hok
    unfold parse_lexical_unit at hok
    split at hok
    · exact Except.noConfusion hok
    · next n hn =>
        split at hok
        · exact Except.noConfusion hok
        · next tc htc =>
            split at hok
            · exact Except.noConfusion hok
            · next v hv =>
                obtain rfl := Except.ok.inj hok
                have h0 : bindInt attrs "tagcount" = .ok 0 := by
                  simp [bindInt, hnone]
                rw [h0] at htc
                obtain rfl := Except.ok.inj htc
                rfl
  · intro hsome
    unfold parse_lexical_unit
    cases hid : bindNat attrs "id" with
    | error p => exact ⟨p, by simp [hid]⟩
    | ok n =>
        have htc : bindInt attrs "tagcount" =
            .error (.unwrapErr .invalidDigit) := by
          simp only [bindInt, hsome]
          decide
        exact ⟨.unwrapErr .invalidDigit, by simp [hid, htc]⟩

/-- Witness for C3: concrete attribute lists with `tagcount` absent and with
`tagcount="not-a-number"`. -/
theorem c3_amended_default_vs_panic_witness :
    lu3.tagcount = 0 ∧
    ∃ p, parse_lexical_unit [("id", "1"), ("tagcount", "not-a-number")] =
      .error p :=
  ⟨(c3_amended_default_vs_panic [("id", "1")]).1 lu3 (by decide) (by decide),
   (c3_amended_default_vs_panic
     [("id", "1"), ("tagcount", "not-a-number")]).2 (by decide)⟩

/-- C4 counterexample: on a fully built store whose synset 1 has the dangling
member id 999, `filter_synsets_by_lang` panics (unwrap on `None`), and
`synset_to_simple` panics on the unknown synset id 42 — contradicting the
claim that these query operations tolerate unresolved ids and never panic. -/
theorem c4_query_panics_counterexample :
    parse doc4 = .ok store4 ∧
    filter_synsets_by_lang store4 Language.PL = .error .unwrapNone ∧
    synset_to_simple store4 42 = .error .unwrapNone := by
  refine ⟨by decide, by decide, by decide⟩

/-- C4 amended: the view layer proper does degrade gracefully — every entry
of a synset view arises from a member id that resolves in the store (dangling
ids are silently dropped, and `synset_to_view` is total) — while
`filter_synsets_by_lang` and `synset_to_simple` panic on dangling member ids
and unknown synset ids respectively. -/
theorem c4_amended_views_drop_dangling :
    ∀ (w : PlWordNet) (s : Synset) (v : LexicalUnitView),
      v ∈ (synset_to_view w s).lexical_units →
      ∃ i, i ∈ s.lexical_units ∧ get_lexical_unit w i = some v := by
  intro w s v hv
  simp only [synset_to_view, List.mem_filterMap] at hv
  obtain ⟨i, hi, hgi⟩ := hv
  exact ⟨i, hi, hgi⟩

/-- Witness for C4: member list `[1, 999]` against `store1` — the view keeps
the resolved `kot` entry, witnessed by member id 1. -/
theorem c4_amended_views_drop_dangling_witness :
    ∃ i, i ∈ syn4w.lexical_units ∧ get_lexical_unit store1 i = some kotV :=
  c4_amended_views_drop_dangling store1 syn4w kotV (by decide)

/-- C5 counterexample: after `EndElement(synset)` the context is NOT cleared
to Idle — it still is `Synset(1)` — and a numeric text chunk after the end
element is still attributed to the closed synset (member list becomes `[7]`). -/
theorem c5_end_element_ignored_counterexample :
    parseLoop doc5pre initState =
      .ok { root := some store5pre, context := .synset 1 } ∧
    parse doc5 = .ok store5 ∧
    (lookupEntry store5.synsets 1).map Synset.lexical_units = some [7] := by
  refine ⟨by decide, by decide, by decide⟩

/-- C5 amended: `EndElement` events are ignored entirely — the loop state is
returned unchanged, so the context persists until the next `synset` or
`relationtypes` start element overwrites it. -/
theorem c5_amended_end_events_noop :
    ∀ (st : ParserState) (tag : String), step st (.endTag tag) = .ok st :=
  fun _ _ => rfl

/-- C6 counterexample: reaching end of input without a root container panics
via `Option::unwrap` on `None` (`Ok(root.unwrap())`) — the identical `Panic`
value also produced mid-stream by a lexical-unit before any root — so no
distinguished `MissingRoot` error is surfaced to the caller. -/
theorem c6_missing_root_counterexample :
    parse [] = .error .unwrapNone ∧
    parse [.empty "lexical-unit" [("id", "1")]] = .error .unwrapNone := by
  refine ⟨by decide, by decide⟩

/-- C6 amended: if the event stream never opens the root container the load
always aborts (with some panic, not a typed `MissingRoot` error) and no
partial graph is returned. -/
theorem c6_amended_no_root_aborts :
    ∀ (evs : List Event),
      (∀ attrs, Event.start "array-list" attrs ∉ evs) →
      ∃ p, parse evs = .error p := by
  intro evs hn
  rcases parseLoop_noRoot evs initState rfl hn with hok | ⟨p, herr⟩
  · exact ⟨.unwrapNone, by simp only [parse, hok]; rfl⟩
  · exact ⟨p, by simp [parse, herr]⟩

/-- Witness for C6 at a rootless single-event stream. -/
theorem c6_amended_no_root_aborts_witness :
    ∃ p, parse [Event.endTag "synset"] = .error p :=
  c6_amended_no_root_aborts [Event.endTag "synset"] (fun attrs h => by simp at h)

/-- C7 counterexample: an element with the unknown tag `bogus` in self-closing
shape is silently ignored — the parse succeeds with an empty store and no
`UnexpectedElement` failure. -/
theorem c7_unknown_tag_counterexample :
    parse doc7 = .ok store0 := by decide

/-- C7 amended: an unknown tag aborts only in start shape, via an
`unreachable!` panic that carries no tag; in self-closing shape it is
silently ignored and the state is unchanged. -/
theorem c7_amended_unknown_tags :
    ∀ (st : ParserState) (tag : String) (attrs : List (String × String)),
      (tag ∉ ["array-list", "synset", "relationtypes", "unit-id"] →
        step st (.start tag attrs) = .error .unreachableCode) ∧
      (tag ∉ ["lexical-unit", "test", "lexicalrelations", "synsetrelations",
              "relationtypes"] →
        step st (.empty tag attrs) = .ok st) := by
  intro st tag attrs
  constructor
  · intro h
    simp only [List.mem_cons, List.not_mem_nil, or_false, not_or] at h
    simp [step, h.1, h.2.1, h.2.2.1, h.2.2.2]
  · intro h
    simp only [List.mem_cons, List.not_mem_nil, or_false, not_or] at h
    simp [step, h.1, h.2.1, h.2.2.1, h.2.2.2.1, h.2.2.2.2]

/-- Witness for C7 at the unknown tag `bogus`. -/
theorem c7_amended_unknown_tags_witness :
    step initState (.start "bogus" []) = .error .unreachableCode ∧
    step initState (.empty "bogus" []) = .ok initState :=
  ⟨(c7_amended_unknown_tags initState "bogus" []).1 (by decide),
   (c7_amended_unknown_tags initState "bogus" []).2 (by decide)⟩

/-- C8: a `synsetrelations` edge `parent=100 child=999 relation=5
valid="true" owner="x"` where synset 999 is absent resolves to a view with
`child = None` and `parent = Some(view of synset 100)`, `valid` and `owner`
passed through unchanged, and the load succeeds. -/
theorem c8_dangling_relation_edge :
    parse doc8 = .ok store8 ∧
    iter_synset_relations store8 =
      [{ parent := some synV100e, child := Option.none
         relation := Option.none, valid := true, owner := "x" }] := by
  refine ⟨by decide, by decide⟩

/-- C9: in every store reachable during parsing (hence also in every store a
successful parse returns), each key of the lexical-unit, synset and
relation-type maps equals the `id` field of the entity stored under it. -/
theorem c9_map_keys_equal_ids :
    ∀ (evs : List Event) (st : ParserState) (r : PlWordNet),
      parseLoop evs initState = .ok st → st.root = some r →
      keysMatch r.lexical_units LexicalUnit.id ∧
      keysMatch r.synsets Synset.id ∧
      keysMatch r.relation_types RelationType.id := by
  intro evs st r h hr
  have hOK := parseLoop_StateOK evs initState st h initState_OK r hr
  exact ⟨hOK.1, hOK.2.1, hOK.2.2.1⟩

/-- Witness for C9 after inserting one entity of each kind. -/
theorem c9_map_keys_equal_ids_witness :
    keysMatch store9.lexical_units LexicalUnit.id ∧
    keysMatch store9.synsets Synset.id ∧
    keysMatch store9.relation_types RelationType.id :=
  c9_map_keys_equal_ids doc9 st9 store9 (by decide) rfl

/-- C10: duplicate ids do not fail the parse; the map entry under each key is
the lexical unit bound from the LAST lexical-unit element with that id since
the last root (`luTrace`), keys stay unique in all three maps, and on a
document with duplicate lexical-unit, synset and relationtypes ids the
surviving entries are exactly the last elements in document order. -/
theorem c10_duplicate_ids_last_wins :
    (∀ (evs : List Event) (w : PlWordNet), parse evs = .ok w →
      (∀ i, lookupEntry w.lexical_units i = luTrace i evs Option.none) ∧
      nodupKeys w.lexical_units ∧ nodupKeys w.synsets ∧
      nodupKeys w.relation_types) ∧
    parse docDup = .ok storeDup ∧
    lookupEntry storeDup.lexical_units 1 = some lu10b ∧
    lookupEntry storeDup.synsets 5 = some syn10b ∧
    lookupEntry storeDup.relation_types 7 = some rt10b := by
  refine ⟨?_, by decide, by decide, by decide, by decide⟩
  intro evs w h
  obtain ⟨st, hl, hr⟩ := parse_ok_elim h
  have hOK := parseLoop_StateOK evs initState st hl initState_OK w hr
  refine ⟨?_, hOK.2.2.2.1, hOK.2.2.2.2.1, hOK.2.2.2.2.2.1⟩
  intro i
  have h2 := parseLoop_rootLU evs initState st i hl
  simp only [rootLU, hr, initState] at h2
  exact h2

/-- Witness for C10 at the duplicate-id document. -/
theorem c10_duplicate_ids_last_wins_witness :
    lookupEntry storeDup.lexical_units 1 = luTrace 1 docDup Option.none ∧
    nodupKeys storeDup.lexical_units :=
  ⟨(c10_duplicate_ids_last_wins.1 docDup storeDup (by decide)).1 1,
   (c10_duplicate_ids_last_wins.1 docDup storeDup (by decide)).2.1⟩

end WN
